import Mathlib

/-!
Verification of the ko build/publish pipeline.

This file gives a shallow embedding, in Lean 4, of the parts of the ko
code base that the specification's claims are about:

* the Go toolchain adapter (`pkg/build/gobuild.go`: `build`, `getGoarm`,
  `hashInputs`, `appFilename`, `updatePath`, `buildOne`, `tarBinary`,
  `tarAddDirectories`),
* the lazy layer (`lazyLayer` with its accessors),
* the daemon publisher (`pkg/publish/daemon.go`: `toImage`, `Publish`),
* the pipeline driver (`resolveFilesToWriter`).

Machine integers are modelled as `Nat` with explicit `% 2^32` where the
source relies on 32-bit wraparound (the MD5 hash used by `hashInputs`).
Fallible Go functions returning `(T, error)` become `Except String T` or
`Option T`.  Effects of the surrounding OS (filesystem, child processes)
are passed in as explicit parameters holding the outcome of the
corresponding effectful step.
-/

set_option autoImplicit false

namespace Ko

/-! ## Environment-entry helpers

Go represents an environment as a `[]string` of `"KEY=VALUE"` entries.
`splitKV` models `strings.SplitN(s, "=", 2)` restricted to the two-part
success case: it splits an entry at its first `'='`; an entry with no
`'='` yields `none`. -/

/-- `strings.HasPrefix` / `startsWith`, over the character data (the
byte-level `String.startsWith` of the Lean core library agrees with this
but does not reduce definitionally). -/
def strStartsWith (s p : String) : Bool :=
  p.data.isPrefixOf s.data

/-- Drop the first `n` characters of a string (`strings.TrimPrefix` once
the prefix has been checked). -/
def strDrop (s : String) (n : Nat) : String :=
  String.mk (s.data.drop n)

/-- `strings.ToLower`, modelled on the ASCII range (the full Unicode case
table is immaterial to the references in play). -/
def lowerChar (c : Char) : Char :=
  if 'A' ≤ c ∧ c ≤ 'Z' then Char.ofNat (c.toNat + 32) else c

/-- `strings.ToLower` over a string. -/
def goToLower (s : String) : String :=
  String.mk (s.data.map lowerChar)

/-- Split a character list at the first `'='`. -/
def splitEqList : List Char → Option (List Char × List Char)
  | [] => none
  | c :: rest =>
    if c = '=' then some ([], rest)
    else (splitEqList rest).map (fun p => (c :: p.1, p.2))

/-- `strings.SplitN(s, "=", 2)`: key/value of an env entry, `none` when the
entry contains no `'='`. -/
def splitKV (s : String) : Option (String × String) :=
  (splitEqList s.data).map (fun p => (String.mk p.1, String.mk p.2))

/-- Does the environment define variable `k` (some entry `k=...`)?  Keys are
taken up to the first `'='`, as Go's `os/exec` does when deduplicating. -/
def definesVar (env : List String) (k : String) : Bool :=
  env.any (fun e => match splitKV e with
    | some kv => kv.1 == k
    | none => false)

/-- The value variable `k` takes in the child process.  `exec.Cmd` passes
`cmd.Env` through `dedupEnv`, which keeps the *last* entry for each key
("Last one wins", as the comment in `build` puts it), so a later entry
shadows an earlier one. -/
def lookupLast : List String → String → Option String
  | [], _ => none
  | e :: rest, k =>
    match lookupLast rest k with
    | some v => some v
    | none =>
      match splitKV e with
      | some kv => if kv.1 == k then some kv.2 else none
      | none => none

/-! ## `strconv.Atoi` -/

/-- Value of a non-empty all-digit character list, `none` otherwise. -/
def digitsToNat : List Char → Option Nat
  | [] => none
  | l => l.foldl (fun acc c =>
      match acc with
      | none => none
      | some n => if c.isDigit then some (n * 10 + (c.toNat - 48)) else none)
      (some 0)

/-- `strconv.Atoi`: optional sign followed by at least one digit.
(Overflow clamping of `Atoi` is not modelled; the ARM variants in play are
single digits.) -/
def goAtoi (s : String) : Option Int :=
  match s.data with
  | [] => none
  | '+' :: rest => (digitsToNat rest).map Int.ofNat
  | '-' :: rest => (digitsToNat rest).map (fun n => -(n : Int))
  | l => (digitsToNat l).map Int.ofNat

/-! ## Platforms and the ARM-variant rule (`getGoarm`) -/

/-- `v1.Platform`, the fields used by the builder. -/
structure Platform where
  os : String
  architecture : String
  variant : String
  osVersion : String
deriving Repr, DecidableEq

/-- `getGoarm` (gobuild.go): requires a `v` prefix, parses the remainder
with `strconv.Atoi`; values `≥ 5` are returned (clamped to `"7"` above 7),
values `< 5` yield the empty selector, parse failures are errors. -/
def getGoarm (p : Platform) : Except String String :=
  if ¬ strStartsWith p.variant "v" then
    .error ("strange arm variant: " ++ p.variant)
  else
    let vs := strDrop p.variant 1
    match goAtoi vs with
    | none => .error ("cannot parse arm variant " ++ p.variant)
    | some variant =>
      if 5 ≤ variant then
        .ok (if 7 < variant then "7" else vs)
      else
        .ok ""

/-- The `defaultEnv` list assembled by `build` (gobuild.go) before the
caller environment is appended: `CGO_ENABLED=0`, target OS and
architecture, and `GOARM` when the architecture is `arm*` with a
non-empty variant whose selector is non-empty. -/
def defaultEnvFor (p : Platform) : Except String (List String) :=
  let base := ["CGO_ENABLED=0", "GOOS=" ++ p.os, "GOARCH=" ++ p.architecture]
  if strStartsWith p.architecture "arm" && p.variant != "" then
    match getGoarm p with
    | .error e => .error e
    | .ok goarm => .ok (if goarm != "" then base ++ ["GOARM=" ++ goarm] else base)
  else
    .ok base

/-- `build` (gobuild.go) sets `cmd.Env = append(defaultEnv, os.Environ()...)`:
the default entries come first, the inherited caller environment after. -/
def buildEnvList (p : Platform) (callerEnv : List String) : Except String (List String) :=
  (defaultEnvFor p).map (fun d => d ++ callerEnv)

/-- The argument vector `build` assembles before `-o`/importpath are
appended: `build`, the optimization-disabling flags when requested, and
the trim flag.  (`addGo113TrimPathFlag` lives in a build-tagged file that
is not part of the sources; per the spec it "always appends a
reproducibility-trimming flag supported by the toolchain", i.e.
`-trimpath`.) -/
def goBuildArgs (disableOptimizations : Bool) : List String :=
  (["build"] ++ (if disableOptimizations then ["-gcflags", "all=-N -l"] else []))
    ++ ["-trimpath"]

/-! ## MD5 (`crypto/md5`) and `hashInputs`

`hashInputs` (gobuild.go) hex-encodes the MD5 digest of the joined
argument vector and the joined environment with `KO`-prefixed entries
filtered out.  MD5 is implemented here directly (RFC 1321), over `Nat`
with explicit reduction modulo `2^32`. -/

namespace MD5

/-- Addition modulo `2^32`. -/
def add32 (a b : Nat) : Nat := (a + b) % 4294967296

/-- Left-rotation of a 32-bit word. -/
def rotl32 (x s : Nat) : Nat :=
  ((x <<< s) ||| (x >>> (32 - s))) % 4294967296

/-- Bitwise complement of a 32-bit word. -/
def not32 (x : Nat) : Nat := x ^^^ 4294967295

/-- The 64 sine-derived round constants `K[i] = ⌊|sin(i+1)|·2^32⌋`. -/
def K : List Nat :=
  [3614090360, 3905402710, 606105819, 3250441966, 4118548399, 1200080426,
   2821735955, 4249261313, 1770035416, 2336552879, 4294925233, 2304563134,
   1804603682, 4254626195, 2792965006, 1236535329, 4129170786, 3225465664,
   643717713, 3921069994, 3593408605, 38016083, 3634488961, 3889429448,
   568446438, 3275163606, 4107603335, 1163531501, 2850285829, 4243563512,
   1735328473, 2368359562, 4294588738, 2272392833, 1839030562, 4259657740,
   2763975236, 1272893353, 4139469664, 3200236656, 681279174, 3936430074,
   3572445317, 76029189, 3654602809, 3873151461, 530742520, 3299628645,
   4096336452, 1126891415, 2878612391, 4237533241, 1700485571, 2399980690,
   4293915773, 2240044497, 1873313359, 4264355552, 2734768916, 1309151649,
   4149444226, 3174756917, 718787259, 3951481745]

/-- The per-round left-rotation amounts. -/
def S : List Nat :=
  [7, 12, 17, 22, 7, 12, 17, 22, 7, 12, 17, 22, 7, 12, 17, 22,
   5, 9, 14, 20, 5, 9, 14, 20, 5, 9, 14, 20, 5, 9, 14, 20,
   4, 11, 16, 23, 4, 11, 16, 23, 4, 11, 16, 23, 4, 11, 16, 23,
   6, 10, 15, 21, 6, 10, 15, 21, 6, 10, 15, 21, 6, 10, 15, 21]

/-- UTF-8 encoding of one scalar value. -/
def encodeChar (c : Char) : List Nat :=
  let n := c.toNat
  if n < 128 then [n]
  else if n < 2048 then
    [192 ||| (n >>> 6), 128 ||| (n &&& 63)]
  else if n < 65536 then
    [224 ||| (n >>> 12), 128 ||| ((n >>> 6) &&& 63), 128 ||| (n &&& 63)]
  else
    [240 ||| (n >>> 18), 128 ||| ((n >>> 12) &&& 63),
     128 ||| ((n >>> 6) &&& 63), 128 ||| (n &&& 63)]

/-- UTF-8 bytes of a string, as Go's `[]byte(s)` conversion produces. -/
def utf8Bytes (s : String) : List Nat :=
  (s.data.map encodeChar).flatten

/-- Little-endian bytes of an 8-byte quantity. -/
def le64 (n : Nat) : List Nat :=
  [n % 256, n / 256 % 256, n / 65536 % 256, n / 16777216 % 256,
   n / 4294967296 % 256, n / 1099511627776 % 256,
   n / 281474976710656 % 256, n / 72057594037927936 % 256]

/-- Little-endian bytes of a 32-bit word. -/
def le32 (n : Nat) : List Nat :=
  [n % 256, n / 256 % 256, n / 65536 % 256, n / 16777216 % 256]

/-- MD5 padding: a `0x80` byte, zeros to 56 mod 64, then the bit length
(little endian, modulo `2^64`). -/
def pad (msg : List Nat) : List Nat :=
  let len := msg.length
  let zeros := (120 - (len + 1) % 64) % 64
  msg ++ [128] ++ List.replicate zeros 0 ++ le64 ((len * 8) % 18446744073709551616)

/-- Word `j` (0 ≤ j < 16) of a 64-byte block, little endian. -/
def word (block : List Nat) (j : Nat) : Nat :=
  block.getD (4 * j) 0 + 256 * block.getD (4 * j + 1) 0
    + 65536 * block.getD (4 * j + 2) 0 + 16777216 * block.getD (4 * j + 3) 0

/-- One of the 64 rounds of the MD5 compression function. -/
def round (M : Nat → Nat) (st : Nat × Nat × Nat × Nat) (i : Nat) :
    Nat × Nat × Nat × Nat :=
  let a := st.1
  let b := st.2.1
  let c := st.2.2.1
  let d := st.2.2.2
  let f :=
    if i < 16 then (b &&& c) ||| (not32 b &&& d)
    else if i < 32 then (d &&& b) ||| (not32 d &&& c)
    else if i < 48 then b ^^^ c ^^^ d
    else c ^^^ (b ||| not32 d)
  let g :=
    if i < 16 then i
    else if i < 32 then (5 * i + 1) % 16
    else if i < 48 then (3 * i + 5) % 16
    else (7 * i) % 16
  let t := add32 (add32 (add32 f a) (K.getD i 0)) (M g)
  (d, add32 b (rotl32 t (S.getD i 0)), b, c)

/-- The MD5 compression function applied to one 64-byte block. -/
def processBlock (st : Nat × Nat × Nat × Nat) (block : List Nat) :
    Nat × Nat × Nat × Nat :=
  let r := (List.range 64).foldl (round (word block)) st
  (add32 st.1 r.1, add32 st.2.1 r.2.1, add32 st.2.2.1 r.2.2.1,
   add32 st.2.2.2 r.2.2.2)

/-- MD5 digest (16 bytes) of a byte sequence. -/
def md5bytes (msg : List Nat) : List Nat :=
  let padded := pad msg
  let blocks := (List.range (padded.length / 64)).map
    (fun i => (padded.drop (64 * i)).take 64)
  let st := blocks.foldl processBlock (1732584193, 4023233417, 2562383102, 271733878)
  le32 st.1 ++ le32 st.2.1 ++ le32 st.2.2.1 ++ le32 st.2.2.2

/-- Lower-case hex digit. -/
def hexDigit (n : Nat) : Char :=
  if n < 10 then Char.ofNat (48 + n) else Char.ofNat (87 + n)

/-- Lower-case hex encoding of a byte list (`hex.EncodeToString`). -/
def hexEncode (bytes : List Nat) : String :=
  String.mk ((bytes.map (fun b => [hexDigit (b / 16), hexDigit (b % 16)])).flatten)

end MD5

/-- `hex.EncodeToString(md5.Sum([]byte(s)))` over the UTF-8 bytes of `s`. -/
def md5hex (s : String) : String :=
  MD5.hexEncode (MD5.md5bytes (MD5.utf8Bytes s))

/-- `hashInputs` (gobuild.go): drop env entries with the `KO` prefix, then
hash the space-joined args and the space-joined filtered env. -/
def hashInputs (args env : List String) : String :=
  let filtered := env.filter (fun s => !(strStartsWith s "KO"))
  md5hex (String.intercalate " " args ++ " " ++ String.intercalate " " filtered)

/-- The stable output directory `build` uses when `KO_STABLE_OUTPUT` is set:
`filepath.Join(os.TempDir(), "ko", ip, hashInputs(args, env))`.  For a
`tempRoot` without trailing separator and clean components this is the
plain separator-joined concatenation. -/
def stableKoDir (tempRoot ip : String) (args env : List String) : String :=
  tempRoot ++ "/ko/" ++ ip ++ "/" ++ hashInputs args env

/-- A fully assembled `go build` invocation: argument vector and child
environment. -/
structure Invocation where
  args : List String
  env : List String
deriving Repr, DecidableEq

/-- The toolchain invocation `build` prepares for import path `ip`: fails
(before any toolchain process is started) when the ARM variant is
malformed, otherwise yields the argument vector and environment. -/
def goBuildInvocation (ip : String) (p : Platform) (disableOptimizations : Bool)
    (callerEnv : List String) : Except String Invocation :=
  match buildEnvList p callerEnv with
  | .error e => .error ("goarm failure for " ++ ip ++ ": " ++ e)
  | .ok env => .ok { args := goBuildArgs disableOptimizations, env := env }

/-! ## References, `appFilename` and the binary path -/

/-- Modelled from the spec: `newRef`/`ref.Path()` live in a source file
that is absent from the sources at hand (only `gobuild.go` calls them).
Per the spec a reference is strict iff it carries the scheme prefix
`ko://`; its path is the locator with the prefix stripped. -/
def refPath (s : String) : String :=
  if strStartsWith s "ko://" then strDrop s 5 else s

/-- `appDir` (gobuild.go). -/
def appDir : String := "/ko-app"

/-- `defaultAppFilename` (gobuild.go). -/
def defaultAppFilename : String := "ko-app"

/-- Strip trailing `'/'` separators. -/
def dropTrailingSep (s : String) : String :=
  String.mk (s.data.reverse.dropWhile (fun c => c = '/')).reverse

/-- `filepath.Base` on a Unix host: `"."` for the empty path, `"/"` when
the path consists only of separators, otherwise the last path element
after stripping trailing separators. -/
def filepathBase (p : String) : String :=
  if p = "" then "."
  else
    let q := dropTrailingSep p
    if q = "" then "/"
    else String.mk (q.data.reverse.takeWhile (fun c => c ≠ '/')).reverse

/-- `appFilename` (gobuild.go): the base name of the import path, or the
safe default when no good name can be determined. -/
def appFilename (importpath : String) : String :=
  let base := filepathBase importpath
  if base = "." || base = "/" then defaultAppFilename else base

/-- `path.Join(appDir, appFilename(ref.Path()))`: the absolute in-image
path of the binary.  For the clean, slash-free `appFilename` output the
join is plain concatenation with one separator. -/
def appPath (importpath : String) : String :=
  appDir ++ "/" ++ appFilename importpath

/-! ## Config mutation: `updatePath` and the entrypoint/env overrides -/

/-- Where kodata lives in the image (`kodataRoot`, gobuild.go). -/
def kodataRoot : String := "/var/run/ko"

/-- The parts of `v1.ConfigFile` the builder touches. -/
structure KoConfig where
  entrypoint : List String
  env : List String
  author : String
deriving Repr, DecidableEq

/-- Does `env` contain an entry whose `KEY=VALUE` key is `PATH`?  Entries
without `'='` do not count, exactly as `updatePath` skips them. -/
def hasPathVar (env : List String) : Bool :=
  env.any (fun e => match splitKV e with
    | some kv => kv.1 == "PATH"
    | none => false)

/-- `updatePath` (gobuild.go): find the first `PATH=value` entry and
replace it by `PATH=value:/ko-app`; if the loop never sees a `PATH` key,
append `PATH=/ko-app`. -/
def updatePath : List String → List String
  | [] => ["PATH=" ++ appDir]
  | e :: rest =>
    match splitKV e with
    | some kv =>
      if kv.1 = "PATH" then ("PATH=" ++ kv.2 ++ ":" ++ appDir) :: rest
      else e :: updatePath rest
    | none => e :: updatePath rest

/-- The config-file mutation at the end of `buildOne`: entrypoint is set
to the binary path, `updatePath` runs on the (deep-copied) base env, then
`KO_DATA_PATH` is appended, then the author is set. -/
def finalizeConfig (base : KoConfig) (importpath : String) : KoConfig :=
  { entrypoint := [appPath importpath]
    env := updatePath base.env ++ ["KO_DATA_PATH=" ++ kodataRoot]
    author := "github.com/google/ko" }

/-! ## Tar streams (`tarAddDirectories`, `tarBinary`) -/

/-- One entry of a tar stream: a directory header or a regular file (with
its byte size).  Both are written with fixed mode 0555 in the source; the
mode carries no information here. -/
inductive TarEntry where
  | dir (name : String)
  | file (name : String) (size : Nat)
deriving Repr, DecidableEq

/-- `path.Dir` for slash paths free of `.`/`..` segments: everything up
to the final separator, with trailing separators cleaned; `"."` when
there is no separator, `"/"` for the root. -/
def pathDir (p : String) : String :=
  let pre := String.mk (p.data.reverse.dropWhile (fun c => c ≠ '/')).reverse
  let cleaned := String.mk (pre.data.reverse.dropWhile (fun c => c = '/')).reverse
  if cleaned = "" then (if pre = "" then "." else "/") else cleaned

/-- `tarAddDirectories` (gobuild.go): write the parent directories of
`dir`, outermost first, stopping at `"."` or `"/"`.  The recursion on
`path.Dir` is expressed with explicit fuel; `tarBinary` supplies enough
fuel for any path. -/
def tarAddDirectories (fuel : Nat) (dir : String) : List TarEntry :=
  match fuel with
  | 0 => []
  | fuel + 1 =>
    if dir = "." || dir = "/" then []
    else tarAddDirectories fuel (pathDir dir) ++ [.dir dir]

/-- `tarBinary` (gobuild.go): the parent directories of `name`, then the
single regular file `name` holding the binary. -/
def tarBinary (name : String) (size : Nat) : List TarEntry :=
  tarAddDirectories (name.length + 2) (pathDir name) ++ [.file name size]

/-- The names of the regular-file entries of a tar stream. -/
def regularFileNames : List TarEntry → List String
  | [] => []
  | .dir _ :: rest => regularFileNames rest
  | .file n _ :: rest => n :: regularFileNames rest

/-! ## Layers and the image assembled by `buildOne` -/

/-- A layer as `buildOne` produces it: a tarball layer built from a tar
stream, or a lazy layer reconstructed from cached metadata. -/
inductive GoLayer where
  | tarball (entries : List TarEntry)
  | lazy (diffid digest : String) (size : Int) (mediaType : String)
deriving Repr, DecidableEq

/-- A `mutate.Addendum`: a layer plus its history entry. -/
structure LayerAddendum where
  layer : GoLayer
  author : String
  createdBy : String
  comment : String
deriving Repr, DecidableEq

/-- An image: ordered layer list (with history) plus the config file. -/
structure GoImage where
  layers : List LayerAddendum
  config : KoConfig
deriving Repr, DecidableEq

/-- `buildOne` (gobuild.go), happy path, given the already-selected
binary layer: append the kodata data layer and the binary layer (in that
order, each with its history entry) to the base image, and apply the
config mutation.  `dataEntries` stands for the tar stream `tarKoData`
produced from the on-disk kodata directory. -/
def buildOneWith (base : GoImage) (s : String) (dataEntries : List TarEntry)
    (binaryLayer : GoLayer) : GoImage :=
  let ip := refPath s
  { layers := base.layers ++
      [{ layer := .tarball dataEntries
         author := "ko"
         createdBy := "ko publish " ++ s
         comment := "kodata contents, at $KO_DATA_PATH" },
       { layer := binaryLayer
         author := "ko"
         createdBy := "ko publish " ++ s
         comment := "go build output, at " ++ appPath ip }]
    config := finalizeConfig base.config ip }

/-- `buildOne` with the cache-disabled binary layer: the tarball of the
just-built binary at its in-image path. -/
def buildOneImage (base : GoImage) (s : String) (dataEntries : List TarEntry)
    (binSize : Nat) : GoImage :=
  buildOneWith base s dataEntries (.tarball (tarBinary (appPath (refPath s)) binSize))

/-! ## Binary-layer selection under `KO_CACHE_META` -/

/-- The cached metadata `buildLazyLayer` recovers: diff-id plus the
descriptor's digest, size and media type. -/
structure LazyMeta where
  diffid : String
  digest : String
  size : Int
  mediaType : String
deriving Repr, DecidableEq

/-- The binary-layer selection of `buildOne` (gobuild.go, the
`KO_CACHE_META` block plus the cache-miss fallback).  `cacheMeta` is
whether `KO_CACHE_META` is set; `lazyResult` is the outcome of
`buildLazyLayer` (build-id extraction, cache-file reads and the two map
lookups); `tarResult` is the outcome of `tarBinary`+`LayerFromOpener` on
the fresh binary.  A failed `lazyResult` is only logged: the `binaryLayer`
variable stays `nil`, the type check below fails, and the real layer is
built instead.  (The best-effort `cacheLayerMeta` write also only logs.) -/
def buildBinaryLayer (cacheMeta : Bool) (lazyResult : Except String LazyMeta)
    (tarResult : Except String (List TarEntry)) : Except String GoLayer :=
  let fromCache : Option GoLayer :=
    if cacheMeta then
      match lazyResult with
      | .ok m => some (.lazy m.diffid m.digest m.size m.mediaType)
      | .error _ => none
    else none
  match fromCache with
  | some l => .ok l
  | none =>
    match tarResult with
    | .error e => .error e
    | .ok entries => .ok (.tarball entries)

/-- `buildOne` with the binary-layer phase made explicit: the outcome of
the whole document build, as a function of the binary-layer selection
inputs. -/
def buildOneResult (base : GoImage) (s : String) (dataEntries : List TarEntry)
    (cacheMeta : Bool) (lazyResult : Except String LazyMeta)
    (tarResult : Except String (List TarEntry)) : Except String GoImage :=
  (buildBinaryLayer cacheMeta lazyResult tarResult).map
    (fun bl => buildOneWith base s dataEntries bl)

/-! ## The lazy layer (`lazyLayer`)

`lazyLayer` carries a cached diff-id and descriptor plus the
`tarBinary` thunk.  Its methods are embedded in a "thunk-counting" style:
each returns its Go result paired with the number of times the method
body runs `l.tarBinary()`, so that "this accessor never re-tars the
binary" is the statement that its count is zero. -/

/-- A gzip-compressed reader wrapped around an uncompressed payload
(`v1util.GzipReadCloserLevel(urc, gzip.BestSpeed)`, modelled opaquely). -/
structure Gzipped (α : Type) where
  payload : α
deriving Repr, DecidableEq

/-- `v1util.GzipReadCloserLevel` at `gzip.BestSpeed`. -/
def gzipBestSpeed {α : Type} (a : α) : Gzipped α := ⟨a⟩

/-- `lazyLayer` (the cached metadata plus the tar-binary thunk).  `α` is
the type of the tar stream the thunk produces. -/
structure LazyLayer (α : Type) where
  diffid : String
  descDigest : String
  descSize : Int
  descMediaType : String
  tarThunk : Unit → Except String α

/-- `lazyLayer.Digest`: returns the cached descriptor digest. -/
def LazyLayer.digestM {α : Type} (l : LazyLayer α) : String × Nat :=
  (l.descDigest, 0)

/-- `lazyLayer.DiffID`: returns the cached diff-id. -/
def LazyLayer.diffIDM {α : Type} (l : LazyLayer α) : String × Nat :=
  (l.diffid, 0)

/-- `lazyLayer.Size`: returns the cached descriptor size. -/
def LazyLayer.sizeM {α : Type} (l : LazyLayer α) : Int × Nat :=
  (l.descSize, 0)

/-- `lazyLayer.MediaType`: returns the cached descriptor media type. -/
def LazyLayer.mediaTypeM {α : Type} (l : LazyLayer α) : String × Nat :=
  (l.descMediaType, 0)

/-- `lazyLayer.Uncompressed`: runs the thunk (once) and returns its
output. -/
def LazyLayer.uncompressedM {α : Type} (l : LazyLayer α) :
    Except String α × Nat :=
  (l.tarThunk (), 1)

/-- `lazyLayer.Compressed`: `Uncompressed` wrapped in a best-speed gzip
reader; the only thunk run is the one `Uncompressed` performs. -/
def LazyLayer.compressedM {α : Type} (l : LazyLayer α) :
    Except String (Gzipped α) × Nat :=
  let u := l.uncompressedM
  (u.1.map gzipBestSpeed, u.2)

/-- The lazy layer `buildLazyLayer` returns on a cache hit
(gobuild.go): the cached diff-id and descriptor of `m`, with the tar
thunk `func() { return tarBinary(appPath, file) }` — so the layer's
realized tar stream is exactly the fresh binary tarball. -/
def lazyLayerFor (m : LazyMeta) (appP : String) (binSize : Nat) :
    LazyLayer (List TarEntry) :=
  { diffid := m.diffid
    descDigest := m.digest
    descSize := m.size
    descMediaType := m.mediaType
    tarThunk := fun _ => .ok (tarBinary appP binSize) }

/-! ## The daemon publisher (`pkg/publish/daemon.go`) -/

/-- An image as the publisher sees it: its digest's hex string
(`img.Digest().Hex`). -/
structure DImage where
  digestHex : String
deriving Repr, DecidableEq

/-- One entry of an index manifest: its digest. -/
structure ManifestEntry where
  digest : String
deriving Repr, DecidableEq

/-- An image index: the manifest list plus the digest-indexed image
lookup (`idx.Image`). -/
structure DIndex where
  manifests : List ManifestEntry
  imageFor : String → Option DImage

/-- A `build.Result`: an image or an index, discriminated by media type
(the source's `switch mt` plus type assertion). -/
inductive BuildResult where
  | image (img : DImage)
  | index (idx : DIndex)

/-- The outcome of `toImage`: a returned image, a returned error, or the
Go runtime panic raised by an out-of-range slice index. -/
inductive ToImageResult where
  | ok (img : DImage)
  | err (msg : String)
  | crash
deriving Repr, DecidableEq

/-- `toImage` (daemon.go): an image result is returned as-is; for an
index result the *first* manifest's digest is looked up —
`im.Manifests[0]` is evaluated without any emptiness check, so an empty
manifest list is an out-of-range access (a Go runtime panic, `crash`
here). -/
def toImage : BuildResult → ToImageResult
  | .image i => .ok i
  | .index x =>
    match x.manifests.head? with
    | none => .crash
    | some m =>
      match x.imageFor m.digest with
      | some i => .ok i
      | none => .err "image not found in index"

/-- `LocalDomain` (daemon.go). -/
def localDomain : String := "ko.local"

/-- The daemon operations `Publish` performs, in order: the
`daemon.Write` calls (tag, image), the `daemon.Tag` aliases (source tag,
new tag), and the returned reference. -/
structure DaemonOps where
  written : List (String × DImage)
  tagged : List (String × String)
  returned : String
deriving Repr, DecidableEq

/-- The outcome of `demon.Publish`. -/
inductive PublishResult where
  | ok (ops : DaemonOps)
  | err (msg : String)
  | crash
deriving Repr, DecidableEq

/-- `demon.Publish` (daemon.go): lower-cases the reference, converts the
build result to a single image, writes it under
`ko.local/<namer(s)>:<hex digest>`, aliases each configured tag
`ko.local/<namer(s)>:<tag>` to that image, and returns the digest tag.
(`name.NewTag` validation and daemon transport errors are outside the
model; both paths only propagate errors.) -/
def daemonPublish (namer : String → String) (tags : List String)
    (br : BuildResult) (s : String) : PublishResult :=
  let s' := goToLower s
  match toImage br with
  | .crash => .crash
  | .err e => .err e
  | .ok img =>
    let digestTag := localDomain ++ "/" ++ namer s' ++ ":" ++ img.digestHex
    .ok { written := [(digestTag, img)]
          tagged := tags.map (fun t =>
            (digestTag, localDomain ++ "/" ++ namer s' ++ ":" ++ t))
          returned := digestTag }

/-! ## The pipeline driver (`resolveFilesToWriter`)

The driver receives file names on a channel, starts one resolution
goroutine per file, queues one future per file in arrival order, and
always awaits the *head* future; each received document is written
followed by the delimiter.  The embedding is a state machine over the
remaining input channel contents and the future queue; a schedule (list
of steps) resolves the nondeterminism of the `select`.  `resolve` is the
outcome of `resolveFile`: `some bytes` when the goroutine sends a
document on its future, `none` when the future closes without a value
(the `ok == false` branch, which writes nothing). -/

/-- The document delimiter, written *after* each document. -/
def delimiter : String := "\n---\n"

/-- One scheduling choice of the driver's `select` loop. -/
inductive DriveStep where
  | take
  | emit
deriving Repr, DecidableEq

/-- Driver state: file names not yet received from the enumeration
channel, the queued futures (by file, in arrival order), and the chunks
written to the output stream so far (one chunk per `out.Write`). -/
structure DriverState where
  pending : List String
  futures : List String
  output : List String
deriving Repr, DecidableEq

/-- The chunk one completed future contributes: the document followed by
the delimiter, or nothing when the future closed without a value. -/
def emitChunk (resolve : String → Option String) (f : String) : Option String :=
  (resolve f).map (fun b => b ++ delimiter)

/-- One iteration of the driver loop.  `take`: receive the next file and
append its future to the queue.  `emit`: the head future completed;
dequeue it and write its document followed by the delimiter.  Steps whose
channel has nothing to deliver leave the state unchanged (the `select`
cannot choose them). -/
def driveStep (resolve : String → Option String) (st : DriverState) :
    DriveStep → DriverState
  | .take =>
    match st.pending with
    | [] => st
    | f :: rest => { st with pending := rest, futures := st.futures ++ [f] }
  | .emit =>
    match st.futures with
    | [] => st
    | f :: rest =>
      { st with
        futures := rest
        output := st.output ++ (emitChunk resolve f).toList }

/-- Run the driver under a schedule. -/
def driveRun (resolve : String → Option String) (steps : List DriveStep)
    (st : DriverState) : DriverState :=
  steps.foldl (driveStep resolve) st

/-- The initial driver state for an input stream of file names. -/
def driveInit (files : List String) : DriverState :=
  { pending := files, futures := [], output := [] }

/-! ## Helper lemmas -/

theorem string_data_append (s t : String) : (s ++ t).data = s.data ++ t.data := by
  cases s; cases t; rfl

theorem lookupLast_append (a b : List String) (k : String) :
    lookupLast (a ++ b) k =
      match lookupLast b k with
      | some v => some v
      | none => lookupLast a k := by
  induction a with
  | nil => simp only [List.nil_append]; cases lookupLast b k <;> rfl
  | cons e a ih =>
    simp only [List.cons_append, lookupLast, List.append_eq, ih]
    cases lookupLast b k <;> cases lookupLast a k <;> rfl

theorem lookupLast_isSome_eq_definesVar (env : List String) (k : String) :
    (lookupLast env k).isSome = definesVar env k := by
  induction env with
  | nil => rfl
  | cons e rest ih =>
    simp only [lookupLast, definesVar, List.any_cons]
    rw [definesVar] at ih
    cases hr : lookupLast rest k with
    | some v =>
      rw [hr] at ih
      simp [← ih]
    | none =>
      rw [hr] at ih
      cases hs : splitKV e with
      | none => simp [← ih]
      | some kv => by_cases hk : kv.1 == k <;> simp [hk, ← ih]

theorem splitEqList_concat (v : List Char) :
    ∀ l : List Char, '=' ∉ l → splitEqList (l ++ '=' :: v) = some (l, v) := by
  intro l
  induction l with
  | nil => intro _; rfl
  | cons c l ih =>
    intro hmem
    rw [List.mem_cons] at hmem
    push_neg at hmem
    obtain ⟨hne, hnotin⟩ := hmem
    rw [List.cons_append, splitEqList, if_neg (fun h : c = '=' => hne h.symm),
      ih hnotin]
    rfl

theorem splitKV_eq_concat (key v : String) (hkey : '=' ∉ key.data) :
    splitKV (key ++ "=" ++ v) = some (key, v) := by
  have hd : (key ++ "=" ++ v).data = key.data ++ '=' :: v.data := by
    rw [string_data_append, string_data_append, List.append_assoc]
    rfl
  rw [splitKV, hd, splitEqList_concat v.data key.data hkey]
  show some (String.mk key.data, String.mk v.data) = _
  cases key; cases v; rfl

/-! ## C1: environment passed to the toolchain

The spec claims the adapter's `CGO_ENABLED`/`GOOS`/`GOARCH`/`GOARM`
values win over the caller's.  The code places `defaultEnv` *first* and
appends `os.Environ()` after it, and `os/exec` resolves duplicates in
favour of the later entry ("Last one wins"), so the *caller's* value wins
for every variable the caller defines — including the adapter's own. -/

/-- C1 (counterexample): with the caller environment defining
`GOOS=windows` and target platform linux/amd64, the environment list the
adapter passes carries the caller's `GOOS=windows` *after* the adapter's
`GOOS=linux`, so under the last-one-wins rule the child's `GOOS` is
`windows`, not the adapter's `linux` as the claim requires. -/
theorem c1_env_adapter_loses_counterexample :
    buildEnvList ⟨"linux", "amd64", "", ""⟩ ["GOOS=windows"]
      = .ok ["CGO_ENABLED=0", "GOOS=linux", "GOARCH=amd64", "GOOS=windows"]
    ∧ lookupLast ["CGO_ENABLED=0", "GOOS=linux", "GOARCH=amd64", "GOOS=windows"] "GOOS"
      = some "windows"
    ∧ some "windows" ≠ some "linux" := by
  refine ⟨by rfl, by rfl, by decide⟩

/-- C1 (amended): the environment passed to `go build` begins with
`CGO_ENABLED=0`, `GOOS`, `GOARCH` (and `GOARM` per the ARM rule),
followed by the inherited caller environment; under the last-one-wins
rule the caller's values win for every variable the caller defines —
the adapter's values take effect only for variables the caller's
environment does not define. -/
theorem c1_env_layout_and_precedence (p : Platform) (callerEnv d : List String)
    (hd : defaultEnvFor p = .ok d) :
    buildEnvList p callerEnv = .ok (d ++ callerEnv)
    ∧ d.take 3 = ["CGO_ENABLED=0", "GOOS=" ++ p.os, "GOARCH=" ++ p.architecture]
    ∧ (∀ k, definesVar callerEnv k = true →
        lookupLast (d ++ callerEnv) k = lookupLast callerEnv k)
    ∧ (∀ k, definesVar callerEnv k = false →
        lookupLast (d ++ callerEnv) k = lookupLast d k) := by
  refine ⟨by simp [buildEnvList, hd, Except.map], ?_, ?_, ?_⟩
  · rw [defaultEnvFor] at hd
    split at hd
    · cases hg : getGoarm p with
      | error e => rw [hg] at hd; cases hd
      | ok goarm =>
        simp only [hg] at hd
        split at hd <;> (cases hd; rfl)
    · cases hd; rfl
  · intro k hk
    have hs : (lookupLast callerEnv k).isSome = true := by
      rw [lookupLast_isSome_eq_definesVar, hk]
    cases hc : lookupLast callerEnv k with
    | none => rw [hc] at hs; cases hs
    | some v => rw [lookupLast_append, hc]
  · intro k hk
    have hs : (lookupLast callerEnv k).isSome = false := by
      rw [lookupLast_isSome_eq_definesVar, hk]
    cases hc : lookupLast callerEnv k with
    | none => rw [lookupLast_append, hc]
    | some v => rw [hc] at hs; cases hs

/-- C1 (witness): the amended statement at platform linux/amd64 with a
caller environment defining `FOO` and `GOOS`: the caller's `GOOS=plan9`
is what the child sees, while `CGO_ENABLED`, which the caller does not
define, keeps the adapter's value. -/
theorem c1_env_layout_witness :
    buildEnvList ⟨"linux", "amd64", "", ""⟩ ["FOO=1", "GOOS=plan9"]
      = .ok (["CGO_ENABLED=0", "GOOS=linux", "GOARCH=amd64"] ++ ["FOO=1", "GOOS=plan9"])
    ∧ lookupLast (["CGO_ENABLED=0", "GOOS=linux", "GOARCH=amd64"] ++ ["FOO=1", "GOOS=plan9"]) "GOOS"
      = lookupLast ["FOO=1", "GOOS=plan9"] "GOOS"
    ∧ lookupLast (["CGO_ENABLED=0", "GOOS=linux", "GOARCH=amd64"] ++ ["FOO=1", "GOOS=plan9"]) "CGO_ENABLED"
      = lookupLast ["CGO_ENABLED=0", "GOOS=linux", "GOARCH=amd64"] "CGO_ENABLED" := by
  obtain ⟨h1, _, h3, h4⟩ := c1_env_layout_and_precedence ⟨"linux", "amd64", "", ""⟩
    ["FOO=1", "GOOS=plan9"] ["CGO_ENABLED=0", "GOOS=linux", "GOARCH=amd64"] (by rfl)
  exact ⟨h1, h3 "GOOS" (by decide), h4 "CGO_ENABLED" (by decide)⟩

/-! ## C2: driver output order and delimiter -/

/-- The quantity the driver loop preserves: the chunks already written,
followed by the chunks the queued futures and the still-pending files
will contribute, in order. -/
def driveOutcome (resolve : String → Option String) (st : DriverState) : List String :=
  st.output ++ (st.futures ++ st.pending).filterMap (emitChunk resolve)

theorem driveStep_outcome (resolve : String → Option String) (st : DriverState)
    (stp : DriveStep) :
    driveOutcome resolve (driveStep resolve st stp) = driveOutcome resolve st := by
  cases stp with
  | take =>
    cases hp : st.pending with
    | nil => simp [driveStep, hp]
    | cons f rest => simp [driveStep, hp, driveOutcome]
  | emit =>
    cases hf : st.futures with
    | nil => simp [driveStep, hf]
    | cons f rest =>
      simp only [driveStep, hf, driveOutcome, List.cons_append, List.filterMap_cons]
      cases emitChunk resolve f <;> simp

theorem driveRun_outcome (resolve : String → Option String) (steps : List DriveStep)
    (st : DriverState) :
    driveOutcome resolve (driveRun resolve steps st) = driveOutcome resolve st := by
  induction steps generalizing st with
  | nil => rfl
  | cons stp steps ih =>
    show driveOutcome resolve (driveRun resolve steps (driveStep resolve st stp)) = _
    rw [ih, driveStep_outcome]

/-- C2: under any schedule that drains the input channel and the future
queue, the driver's output stream is, in the arrival order of the input
file names, one chunk per resolved document consisting of the document
followed by (not preceded by) the delimiter `"\n---\n"`. -/
theorem c2_output_order_and_delimiter (resolve : String → Option String)
    (files : List String) (steps : List DriveStep)
    (hp : (driveRun resolve steps (driveInit files)).pending = [])
    (hf : (driveRun resolve steps (driveInit files)).futures = []) :
    (driveRun resolve steps (driveInit files)).output
      = files.filterMap (fun f => (resolve f).map (fun b => b ++ delimiter)) := by
  have h := driveRun_outcome resolve steps (driveInit files)
  rw [driveOutcome, driveOutcome, hp, hf] at h
  simpa [driveInit, emitChunk] using h

/-- C2 (witness): two files resolved under an interleaved schedule emit
`"A!\n---\n"` then `"B!\n---\n"`, each document followed by the
delimiter, in arrival order. -/
theorem c2_output_order_witness :
    (driveRun (fun f => some (f ++ "!")) [.take, .emit, .take, .emit]
        (driveInit ["A", "B"])).output
      = ["A", "B"].filterMap (fun f => ((fun f => some (f ++ "!")) f).map
          (fun b => b ++ delimiter)) :=
  c2_output_order_and_delimiter (fun f => some (f ++ "!")) ["A", "B"]
    [.take, .emit, .take, .emit] (by rfl) (by rfl)

/-! ## C3: entrypoint, `KO_DATA_PATH` and `PATH` -/

theorem updatePath_no_path (env : List String) (h : hasPathVar env = false) :
    updatePath env = env ++ ["PATH=" ++ appDir] := by
  induction env with
  | nil => rfl
  | cons e rest ih =>
    rw [hasPathVar, List.any_cons, Bool.or_eq_false_iff] at h
    obtain ⟨he, hrest⟩ := h
    rw [hasPathVar] at ih
    cases hs : splitKV e with
    | none => simp only [updatePath, hs, ih hrest, List.cons_append]
    | some kv =>
      rw [hs] at he
      simp only [updatePath, hs]
      rw [if_neg (by simpa using he), ih hrest, List.cons_append]

theorem updatePath_first_path (v : String) (post : List String) :
    ∀ pre, hasPathVar pre = false →
      updatePath (pre ++ ("PATH=" ++ v) :: post)
        = pre ++ ("PATH=" ++ v ++ ":" ++ appDir) :: post := by
  have hs : splitKV ("PATH=" ++ v) = some ("PATH", v) := by
    have h := splitKV_eq_concat "PATH" v (by decide)
    rwa [show ("PATH" : String) ++ "=" = "PATH=" from rfl] at h
  intro pre
  induction pre with
  | nil =>
    intro _
    simp only [List.nil_append, updatePath, hs, if_true]
  | cons e pre ih =>
    intro h
    rw [hasPathVar, List.any_cons, Bool.or_eq_false_iff] at h
    obtain ⟨he, hrest⟩ := h
    cases hse : splitKV e with
    | none =>
      simp only [List.cons_append, updatePath, hse, List.append_eq, ih hrest]
    | some kv =>
      rw [hse] at he
      simp only [List.cons_append, updatePath, hse, List.append_eq]
      rw [if_neg (by simpa using he), ih hrest]

/-- C3: after `buildOne`'s config mutation the entrypoint is exactly the
one-element list holding `/ko-app/<basename>`, the env contains
`KO_DATA_PATH=/var/run/ko`, and `PATH` gets `/ko-app` appended with a
`':'` separator when a `PATH` variable is present in the base config's
env, else `PATH` is set to `/ko-app`. -/
theorem c3_config_overrides (base : KoConfig) (s : String) :
    (finalizeConfig base (refPath s)).entrypoint = [appPath (refPath s)]
    ∧ appPath (refPath s) = "/ko-app/" ++ appFilename (refPath s)
    ∧ (finalizeConfig base (refPath s)).env
        = updatePath base.env ++ ["KO_DATA_PATH=/var/run/ko"]
    ∧ "KO_DATA_PATH=/var/run/ko" ∈ (finalizeConfig base (refPath s)).env
    ∧ (hasPathVar base.env = false →
        (finalizeConfig base (refPath s)).env
          = base.env ++ ["PATH=/ko-app", "KO_DATA_PATH=/var/run/ko"])
    ∧ (∀ pre v post, base.env = pre ++ ("PATH=" ++ v) :: post →
        hasPathVar pre = false →
        (finalizeConfig base (refPath s)).env
          = pre ++ ("PATH=" ++ v ++ ":" ++ appDir)
              :: (post ++ ["KO_DATA_PATH=/var/run/ko"])) := by
  refine ⟨rfl, rfl, rfl, ?_, ?_, ?_⟩
  · exact List.mem_append_right _ (List.mem_singleton.mpr rfl)
  · intro h
    show updatePath base.env ++ ["KO_DATA_PATH=" ++ kodataRoot] = _
    rw [updatePath_no_path base.env h, List.append_assoc]
    rfl
  · intro pre v post heq hpre
    show updatePath base.env ++ ["KO_DATA_PATH=" ++ kodataRoot] = _
    rw [heq, updatePath_first_path v post pre hpre, List.append_assoc,
      List.cons_append]
    rfl

/-- C3 (witness): a base config whose env holds `A=1` and
`PATH=/usr/bin` ends up with `PATH=/usr/bin:/ko-app`, followed by
`KO_DATA_PATH=/var/run/ko`, and the entrypoint is the binary path. -/
theorem c3_config_witness :
    (finalizeConfig ⟨[], ["A=1", "PATH=/usr/bin"], ""⟩
        (refPath "ko://example.com/cmd/app")).env
      = ["A=1"] ++ ("PATH=" ++ "/usr/bin" ++ ":" ++ appDir)
          :: ([] ++ ["KO_DATA_PATH=/var/run/ko"])
    ∧ (finalizeConfig ⟨[], ["A=1", "PATH=/usr/bin"], ""⟩
        (refPath "ko://example.com/cmd/app")).entrypoint
      = [appPath (refPath "ko://example.com/cmd/app")] := by
  obtain ⟨h1, _, _, _, _, h6⟩ :=
    c3_config_overrides ⟨[], ["A=1", "PATH=/usr/bin"], ""⟩ "ko://example.com/cmd/app"
  exact ⟨h6 ["A=1"] "/usr/bin" [] (by rfl) (by rfl), h1⟩

/-! ## C4: layer order within a produced image -/

theorem regularFileNames_append (a b : List TarEntry) :
    regularFileNames (a ++ b) = regularFileNames a ++ regularFileNames b := by
  induction a with
  | nil => rfl
  | cons e a ih => cases e <;> simp [regularFileNames, ih]

theorem regularFileNames_tarAddDirectories (fuel : Nat) :
    ∀ dir, regularFileNames (tarAddDirectories fuel dir) = [] := by
  induction fuel with
  | zero => intro _; rfl
  | succ fuel ih =>
    intro dir
    simp only [tarAddDirectories]
    split
    · rfl
    · rw [regularFileNames_append, ih]; rfl

theorem regularFileNames_tarBinary (name : String) (size : Nat) :
    regularFileNames (tarBinary name size) = [name] := by
  rw [tarBinary, regularFileNames_append, regularFileNames_tarAddDirectories]
  rfl

/-- C4: *every* image `buildOne` produces — with caching disabled, on a
cache miss, or on a cache hit with a lazy binary layer — appends exactly
two layers to the base image, the kodata data layer before the binary
layer, and its entrypoint equals the single regular-file path contained
in the binary layer: for a fresh tarball layer that is its one regular
file, for a lazy layer the one regular file of the tar stream its thunk
realizes.  `htar` pins the tar outcome to what `buildOne` actually
passes: `tarBinary(appPath, file)` when it succeeds. -/
theorem c4_two_layers_data_then_binary (base : GoImage) (s : String)
    (dataEntries : List TarEntry) (binSize : Nat) (cacheMeta : Bool)
    (lazyResult : Except String LazyMeta)
    (tarResult : Except String (List TarEntry)) (img : GoImage)
    (htar : ∀ entries, tarResult = .ok entries →
        entries = tarBinary (appPath (refPath s)) binSize)
    (h : buildOneResult base s dataEntries cacheMeta lazyResult tarResult
        = .ok img) :
    img.layers.length = base.layers.length + 2
    ∧ ∃ bl, buildBinaryLayer cacheMeta lazyResult tarResult = .ok bl
        ∧ img.layers.map (fun a => a.layer)
            = base.layers.map (fun a => a.layer) ++ [.tarball dataEntries, bl]
        ∧ img.config.entrypoint = [appPath (refPath s)]
        ∧ ((bl = .tarball (tarBinary (appPath (refPath s)) binSize)
              ∧ regularFileNames (tarBinary (appPath (refPath s)) binSize)
                  = [appPath (refPath s)])
           ∨ (∃ m, cacheMeta = true ∧ lazyResult = .ok m
              ∧ bl = .lazy m.diffid m.digest m.size m.mediaType
              ∧ (lazyLayerFor m (appPath (refPath s)) binSize).tarThunk ()
                  = .ok (tarBinary (appPath (refPath s)) binSize)
              ∧ regularFileNames (tarBinary (appPath (refPath s)) binSize)
                  = [appPath (refPath s)])) := by
  cases hb : buildBinaryLayer cacheMeta lazyResult tarResult with
  | error e =>
    rw [buildOneResult, hb] at h
    cases h
  | ok bl =>
    rw [buildOneResult, hb] at h
    have himg : img = buildOneWith base s dataEntries bl :=
      (Except.ok.inj h).symm
    subst himg
    refine ⟨by simp [buildOneWith], bl, rfl, by simp [buildOneWith], rfl, ?_⟩
    cases cm : cacheMeta with
    | true =>
      cases hlz : lazyResult with
      | ok m =>
        rw [cm, hlz] at hb
        refine Or.inr ⟨m, rfl, rfl, ?_, rfl, regularFileNames_tarBinary _ _⟩
        exact (Except.ok.inj hb).symm
      | error e =>
        rw [cm, hlz] at hb
        cases htr : tarResult with
        | error e2 => rw [htr] at hb; cases hb
        | ok entries =>
          rw [htr] at hb
          refine Or.inl ⟨?_, regularFileNames_tarBinary _ _⟩
          rw [← htar entries htr]
          exact (Except.ok.inj hb).symm
    | false =>
      rw [cm] at hb
      cases htr : tarResult with
      | error e2 => rw [htr] at hb; cases hb
      | ok entries =>
        rw [htr] at hb
        refine Or.inl ⟨?_, regularFileNames_tarBinary _ _⟩
        rw [← htar entries htr]
        exact (Except.ok.inj hb).symm

/-- C4 (witness): a cache-hit build (lazy binary layer reconstructed
from cached metadata) still yields an image with exactly two appended
layers, data before binary, entrypoint `/ko-app/app`, and a binary-layer
tar stream whose single regular file is that same path. -/
theorem c4_two_layers_witness :
    (buildOneWith ⟨[], ⟨[], [], ""⟩⟩ "ko://example.com/cmd/app" []
        (.lazy "sha256:d" "sha256:g" 5 "mt")).layers.length
      = ([] : List LayerAddendum).length + 2
    ∧ (buildOneWith ⟨[], ⟨[], [], ""⟩⟩ "ko://example.com/cmd/app" []
        (.lazy "sha256:d" "sha256:g" 5 "mt")).config.entrypoint
      = [appPath (refPath "ko://example.com/cmd/app")]
    ∧ regularFileNames (tarBinary (appPath (refPath "ko://example.com/cmd/app")) 3)
      = [appPath (refPath "ko://example.com/cmd/app")] := by
  obtain ⟨hlen, bl, hbl, hmap, hentry, hcontent⟩ :=
    c4_two_layers_data_then_binary ⟨[], ⟨[], [], ""⟩⟩ "ko://example.com/cmd/app"
      [] 3 true (.ok ⟨"sha256:d", "sha256:g", 5, "mt"⟩)
      (.ok (tarBinary (appPath (refPath "ko://example.com/cmd/app")) 3))
      (buildOneWith ⟨[], ⟨[], [], ""⟩⟩ "ko://example.com/cmd/app" []
        (.lazy "sha256:d" "sha256:g" 5 "mt"))
      (fun entries he => (Except.ok.inj he).symm) rfl
  refine ⟨hlen, hentry, ?_⟩
  rcases hcontent with ⟨-, hreg⟩ | ⟨m, -, -, -, -, hreg⟩ <;> exact hreg

/-! ## C5: cache-miss recovery under `KO_CACHE_META` -/

/-- C5: when layer-metadata caching is enabled and `buildLazyLayer`
fails (for any reason `e`), the builder falls back to the freshly tarred
real layer: the outcome equals the tar outcome, does not depend on the
cache-miss error, and is a successful image whenever the tar succeeds —
the cache-miss error never reaches the caller. -/
theorem c5_cache_miss_recovered (e : String)
    (tarResult : Except String (List TarEntry)) (base : GoImage) (s : String)
    (dataEntries : List TarEntry) :
    buildBinaryLayer true (.error e) tarResult = tarResult.map GoLayer.tarball
    ∧ buildOneResult base s dataEntries true (.error e) tarResult
        = buildOneResult base s dataEntries true
            (.error "some other cache miss") tarResult
    ∧ (∀ entries, tarResult = .ok entries →
        buildOneResult base s dataEntries true (.error e) tarResult
          = .ok (buildOneWith base s dataEntries (.tarball entries))) := by
  refine ⟨?_, ?_, ?_⟩
  · cases tarResult <;> rfl
  · cases tarResult <;> rfl
  · intro entries h
    subst h
    rfl

/-! ## C6: the ARM-variant rule -/

/-- C6: for an `arm*` architecture with non-empty variant `v<N>`: when
`5 ≤ N` a `GOARM` selector whose numeric value is `N` clamped to the
maximum supported value 7 is appended to the environment; when `N < 5`
no `GOARM` variable is set; and when the variant does not parse as
`v<N>` the build fails with an error before any toolchain invocation is
assembled. -/
theorem c6_arm_variant_rule (p : Platform) (n : Int)
    (harch : strStartsWith p.architecture "arm" = true)
    (hvar : p.variant ≠ "") :
    (strStartsWith p.variant "v" = true → goAtoi (strDrop p.variant 1) = some n →
      ((5 ≤ n → ∃ gs, getGoarm p = .ok gs ∧ gs ≠ ""
          ∧ goAtoi gs = some (min n 7)
          ∧ defaultEnvFor p = .ok ["CGO_ENABLED=0", "GOOS=" ++ p.os,
              "GOARCH=" ++ p.architecture, "GOARM=" ++ gs])
       ∧ (n < 5 → getGoarm p = .ok ""
          ∧ defaultEnvFor p = .ok ["CGO_ENABLED=0", "GOOS=" ++ p.os,
              "GOARCH=" ++ p.architecture])))
    ∧ ((strStartsWith p.variant "v" = false ∨ goAtoi (strDrop p.variant 1) = none) →
        ∀ ip disableOptimizations callerEnv, ∃ msg,
          goBuildInvocation ip p disableOptimizations callerEnv = .error msg) := by
  have hvb : (p.variant != "") = true := by simp [hvar]
  constructor
  · intro hsw hAtoi
    constructor
    · intro h5
      have hg : getGoarm p = .ok (if 7 < n then "7" else strDrop p.variant 1) := by
        simp only [getGoarm, hsw, hAtoi, not_true, if_false, if_pos h5]
      have hne : (if 7 < n then "7" else strDrop p.variant 1) ≠ "" := by
        by_cases h7 : 7 < n
        · simp [h7]
        · rw [if_neg h7]
          intro hempty
          rw [hempty] at hAtoi
          exact Option.noConfusion ((show goAtoi "" = none from rfl).symm.trans hAtoi)
      refine ⟨if 7 < n then "7" else strDrop p.variant 1, hg, hne, ?_, ?_⟩
      · by_cases h7 : 7 < n
        · rw [if_pos h7, show goAtoi "7" = some 7 from rfl,
            min_eq_right (le_of_lt h7)]
        · rw [if_neg h7, hAtoi, min_eq_left (by omega : n ≤ 7)]
      · have hnb : ((if 7 < n then "7" else strDrop p.variant 1) != "") = true := by
          simp [hne]
        simp only [defaultEnvFor, harch, hvb, Bool.and_self, if_true, hg, hnb]
        rfl
    · intro hlt
      have hg : getGoarm p = .ok "" := by
        simp only [getGoarm, hsw, hAtoi, not_true, if_false, if_neg (by omega : ¬ 5 ≤ n)]
      constructor
      · exact hg
      · simp only [defaultEnvFor, harch, hvb, Bool.and_self, if_true, hg]
        rfl
  · intro hbad ip disableOptimizations callerEnv
    have hg : ∃ e, getGoarm p = .error e := by
      rcases hbad with hsw | hnone
      · exact ⟨"strange arm variant: " ++ p.variant, by simp [getGoarm, hsw]⟩
      · cases hsw : strStartsWith p.variant "v" with
        | false => exact ⟨"strange arm variant: " ++ p.variant, by simp [getGoarm, hsw]⟩
        | true =>
          refine ⟨"cannot parse arm variant " ++ p.variant, ?_⟩
          simp only [getGoarm, hsw, hnone, not_true, if_false]
    obtain ⟨e, hg⟩ := hg
    refine ⟨"goarm failure for " ++ ip ++ ": " ++ e, ?_⟩
    simp only [goBuildInvocation, buildEnvList, defaultEnvFor, harch, hvb,
      Bool.and_self, if_true, hg, Except.map]

/-- C6 (witness): platform `linux/arm/v9` gets `GOARM=7` (9 clamped to
the maximum 7) appended after `CGO_ENABLED=0`, `GOOS` and `GOARCH`;
a malformed variant `x7` makes the invocation fail. -/
theorem c6_arm_variant_witness :
    getGoarm ⟨"linux", "arm", "v9", ""⟩ = .ok "7"
    ∧ defaultEnvFor ⟨"linux", "arm", "v9", ""⟩
        = .ok ["CGO_ENABLED=0", "GOOS=" ++ "linux", "GOARCH=" ++ "arm", "GOARM=" ++ "7"]
    ∧ (∃ msg, goBuildInvocation "example.com/app" ⟨"linux", "arm", "x7", ""⟩
        false [] = .error msg) := by
  obtain ⟨h1, _⟩ := c6_arm_variant_rule ⟨"linux", "arm", "v9", ""⟩ 9 (by rfl) (by decide)
  obtain ⟨hge, _⟩ := h1 (by rfl) (by rfl)
  obtain ⟨gs, hgs, -, -, henv⟩ := hge (by norm_num)
  have hgs7 : gs = "7" :=
    Except.ok.inj (hgs.symm.trans (show getGoarm ⟨"linux", "arm", "v9", ""⟩
      = .ok "7" from rfl))
  subst hgs7
  obtain ⟨-, h2⟩ := c6_arm_variant_rule ⟨"linux", "arm", "x7", ""⟩ 0 (by rfl) (by decide)
  exact ⟨hgs, henv, h2 (Or.inl (by rfl)) "example.com/app" false []⟩

/-- C5 (witness): a concrete cache miss (`"no buildid"`) with a
successful fresh tar still produces the image, with the real tarball
binary layer. -/
theorem c5_cache_miss_witness :
    buildOneResult ⟨[], ⟨[], [], ""⟩⟩ "ko://example.com/cmd/app" [] true
        (.error "no buildid") (.ok [.file "/ko-app/app" 3])
      = .ok (buildOneWith ⟨[], ⟨[], [], ""⟩⟩ "ko://example.com/cmd/app" []
          (.tarball [.file "/ko-app/app" 3])) :=
  (c5_cache_miss_recovered "no buildid" (.ok [.file "/ko-app/app" 3])
    ⟨[], ⟨[], [], ""⟩⟩ "ko://example.com/cmd/app" []).2.2
    [.file "/ko-app/app" 3] rfl

/-! ## C7: stable output directory

The spec claims the directory is `<tempRoot>/ko-app/<ref>/<h>`; the code
joins `os.TempDir()` with the path component `"ko"`, not `"ko-app"`. -/

/-- C7 (counterexample): at temp root `/tmp`, import path
`example.com/app`, args `["build"]` and an empty environment, the stable
output directory the adapter uses is *not* the
`<tempRoot>/ko-app/<ref>/<h>` of the claim (its second component is
`ko`, not `ko-app`). -/
theorem c7_stable_dir_counterexample :
    stableKoDir "/tmp" "example.com/app" ["build"] []
      ≠ "/tmp" ++ "/ko-app/" ++ "example.com/app" ++ "/"
          ++ hashInputs ["build"] [] := by
  intro h
  have h8 := congrArg (fun s => s.data.take 8) h
  exact absurd h8 (by decide)

/-- C7 (amended): the stable output directory is
`<tempRoot>/ko/<ref>/<h>` where `h` hashes the argument vector and the
environment with the `KO`-prefixed entries excluded, so two invocations
with the same args and the same non-`KO` environment map to the same
directory. -/
theorem c7_stable_dir_layout (tempRoot ip : String) (args env env' : List String)
    (h : env.filter (fun s => !(strStartsWith s "KO"))
        = env'.filter (fun s => !(strStartsWith s "KO"))) :
    stableKoDir tempRoot ip args env
      = tempRoot ++ "/ko/" ++ ip ++ "/" ++ hashInputs args env
    ∧ hashInputs args env = hashInputs args env'
    ∧ stableKoDir tempRoot ip args env = stableKoDir tempRoot ip args env' := by
  have hh : hashInputs args env = hashInputs args env' := by
    rw [hashInputs, hashInputs, h]
  exact ⟨rfl, hh, by rw [stableKoDir, stableKoDir, hh]⟩

/-- C7 (witness): two environments differing only in `KO`-prefixed
entries map to the same stable output directory. -/
theorem c7_stable_dir_witness :
    stableKoDir "/tmp" "example.com/app" ["build"] ["A=1", "KO_DOCKER_REPO=x"]
      = stableKoDir "/tmp" "example.com/app" ["build"] ["A=1", "KO_CACHE_META=1"] :=
  (c7_stable_dir_layout "/tmp" "example.com/app" ["build"]
    ["A=1", "KO_DOCKER_REPO=x"] ["A=1", "KO_CACHE_META=1"] (by rfl)).2.2

/-! ## C8: daemon publish

The spec's tag form `ko.local/<namer(ref)>:<hexdigest>` omits that
`Publish` lower-cases the reference before applying the namer. -/

/-- C8 (counterexample): with the identity namer and the mixed-case
reference `Foo`, the digest tag the publisher writes and returns is
`ko.local/foo:abc`, not the claim's `ko.local/<namer(ref)>:<hexdigest>`
= `ko.local/Foo:abc`. -/
theorem c8_daemon_publish_counterexample :
    daemonPublish (fun x => x) [] (.image ⟨"abc"⟩) "Foo"
      = .ok { written := [("ko.local/foo:abc", ⟨"abc"⟩)], tagged := [],
              returned := "ko.local/foo:abc" }
    ∧ ("ko.local/foo:abc" : String)
      ≠ localDomain ++ "/" ++ (fun x => x) "Foo" ++ ":" ++ "abc" := by
  exact ⟨by rfl, by decide⟩

/-- C8 (amended): for every build result convertible to an image, the
daemon publisher writes that image under
`ko.local/<namer(lowercase ref)>:<hexdigest>`, aliases every
user-specified tag to the same image, and returns the digest tag; when
the result is an index, the image is the one at the index's *first*
manifest digest. -/
theorem c8_daemon_publish_tags (namer : String → String) (tags : List String)
    (br : BuildResult) (s : String) (img : DImage)
    (h : toImage br = .ok img) :
    daemonPublish namer tags br s
      = .ok { written := [(localDomain ++ "/" ++ namer (goToLower s) ++ ":"
                ++ img.digestHex, img)]
              tagged := tags.map (fun t =>
                (localDomain ++ "/" ++ namer (goToLower s) ++ ":" ++ img.digestHex,
                 localDomain ++ "/" ++ namer (goToLower s) ++ ":" ++ t))
              returned := localDomain ++ "/" ++ namer (goToLower s) ++ ":"
                ++ img.digestHex }
    ∧ (∀ idx m i, br = .index idx → idx.manifests.head? = some m →
        idx.imageFor m.digest = some i → img = i) := by
  constructor
  · rw [daemonPublish, h]
  · intro idx m i hbr hm hi
    subst hbr
    simp only [toImage, hm, hi] at h
    exact (ToImageResult.ok.inj h).symm

/-- C8 (witness): the amended statement at the identity namer, one extra
tag `latest`, an image result with digest `abc` and reference `Foo`. -/
theorem c8_daemon_publish_witness :
    daemonPublish (fun x => x) ["latest"] (.image ⟨"abc"⟩) "Foo"
      = .ok { written := [(localDomain ++ "/" ++ (fun x => x) (goToLower "Foo")
                ++ ":" ++ "abc", ⟨"abc"⟩)]
              tagged := [(localDomain ++ "/" ++ (fun x => x) (goToLower "Foo")
                ++ ":" ++ "abc",
                localDomain ++ "/" ++ (fun x => x) (goToLower "Foo") ++ ":"
                ++ "latest")]
              returned := localDomain ++ "/" ++ (fun x => x) (goToLower "Foo")
                ++ ":" ++ "abc" } :=
  (c8_daemon_publish_tags (fun x => x) ["latest"] (.image ⟨"abc"⟩) "Foo"
    ⟨"abc"⟩ rfl).1

/-! ## C9: lazy-layer accessors never run the tar thunk -/

/-- C9: `Digest`, `DiffID`, `Size` and `MediaType` return only the cached
descriptor/diff-id values with zero runs of the `tarBinary` thunk (and
are invariant under replacing the thunk); the thunk is run exactly once
by `Uncompressed`, and `Compressed` is `Uncompressed`'s output wrapped
in a best-speed gzip reader, also with exactly one thunk run. -/
theorem c9_lazy_layer_accessors {α : Type} (l : LazyLayer α)
    (t t' : Unit → Except String α) :
    l.digestM = (l.descDigest, 0)
    ∧ l.diffIDM = (l.diffid, 0)
    ∧ l.sizeM = (l.descSize, 0)
    ∧ l.mediaTypeM = (l.descMediaType, 0)
    ∧ l.uncompressedM = (l.tarThunk (), 1)
    ∧ l.compressedM = ((l.uncompressedM).1.map gzipBestSpeed, (l.uncompressedM).2)
    ∧ (l.compressedM).2 = 1
    ∧ ({ l with tarThunk := t } : LazyLayer α).digestM
        = ({ l with tarThunk := t' } : LazyLayer α).digestM
    ∧ ({ l with tarThunk := t } : LazyLayer α).diffIDM
        = ({ l with tarThunk := t' } : LazyLayer α).diffIDM
    ∧ ({ l with tarThunk := t } : LazyLayer α).sizeM
        = ({ l with tarThunk := t' } : LazyLayer α).sizeM
    ∧ ({ l with tarThunk := t } : LazyLayer α).mediaTypeM
        = ({ l with tarThunk := t' } : LazyLayer α).mediaTypeM :=
  ⟨rfl, rfl, rfl, rfl, rfl, rfl, rfl, rfl, rfl, rfl, rfl⟩

/-! ## C10: `toImage` on an index result -/

/-- C10: the conversion of an index build result to a single image
reads the index's first manifest without an emptiness check: it crashes
(out-of-range slice index) exactly when the manifest list is empty, and
otherwise proceeds with the first manifest's digest. -/
theorem c10_toImage_unchecked_first (idx : DIndex) :
    (toImage (.index idx) = .crash ↔ idx.manifests = [])
    ∧ (∀ m rest, idx.manifests = m :: rest →
        toImage (.index idx)
          = (match idx.imageFor m.digest with
             | some i => .ok i
             | none => .err "image not found in index")) := by
  constructor
  · constructor
    · intro h
      cases hm : idx.manifests with
      | nil => rfl
      | cons m rest =>
        simp only [toImage, hm, List.head?_cons] at h
        cases hi : idx.imageFor m.digest <;> simp only [hi] at h <;> cases h
    · intro h
      simp only [toImage, h, List.head?_nil]
  · intro m rest hm
    simp only [toImage, hm, List.head?_cons]

/-- C10 (witness): an index result with an empty manifest list makes
`toImage` perform the out-of-range access. -/
theorem c10_toImage_empty_witness :
    toImage (.index ⟨[], fun _ => none⟩) = .crash :=
  (c10_toImage_unchecked_first ⟨[], fun _ => none⟩).1.mpr rfl

end Ko
